import Mathlib

/-!
Verification of the 0G Drive ledger contracts (OGStorage, OGRegistry, OGFees).

The three Solidity contracts are shallowly embedded as pure Lean functions over
explicit state records.  Addresses and timestamps are `Nat` (the null address is
`0`), `uint256` is `Nat` with explicit `2 ^ 256` overflow checks where the
Solidity 0.8 checked arithmetic can revert, every external entry point is a
function `State → args → Except SolErr result`, and a revert is `Except.error`
(so a reverted call leaves the pre-state untouched by construction).

`keccak256(abi.encodePacked(rootHash, msg.sender, block.timestamp))`, the file
id derivation, is modelled by the triple `(rootHash, sender, timestamp)` itself:
a collision-free abstraction of the hash, so two ids are equal exactly when the
derivation inputs are equal.

Solidity storage semantics that matter here are modelled faithfully:
`delete files[fileId]` zeroes the scalar members of the struct but does NOT
touch the nested `mapping(address => bool) sharedWith` (per the Solidity
reference: `delete` has no effect on mappings), and a later write through
`File storage newFile = files[fileId]` reuses whatever is left of that mapping.
-/

namespace OGDrive

/-- Role tags of the AccessControl setup.  The `bytes32` role constants are
distinct keccak images (plus the zero `DEFAULT_ADMIN_ROLE`), so they are
modelled as distinct constructors. -/
inductive Role where
  | defaultAdmin
  | admin
  | operator
  | verifier
  | feeManager
  deriving DecidableEq

/-- Revert reasons.  `reqFail msg` is a failed `require(cond, msg)`;
`pausedErr` is the `whenNotPaused` modifier reverting ("Pausable: paused");
`notPausedErr` is `whenPaused` reverting; `missingRole` is the `onlyRole`
modifier reverting; `overflow` is a Solidity 0.8 checked-arithmetic panic. -/
inductive SolErr where
  | reqFail (msg : String)
  | pausedErr
  | notPausedErr
  | missingRole (role : Role) (account : Nat)
  | overflow
  deriving DecidableEq

/-- Extract the success value of an `Except`, with a default for the error
case (used only to name concrete intermediate states of example traces). -/
def okD {ε σ : Type} (d : σ) : Except ε σ → σ
  | .ok s => s
  | .error _ => d

/-- Boolean success test for an `Except` result. -/
def isOkE {ε σ : Type} : Except ε σ → Bool
  | .ok _ => true
  | .error _ => false

/-- The `uint256` modulus: Solidity 0.8 checked arithmetic reverts when a
result would reach this bound. -/
def U256 : Nat := 2 ^ 256

/-- First index of `a` in a list, scanning left to right: the search half of
the swap-remove loop in `deleteFile`. -/
def firstIdxOf {α : Type} [DecidableEq α] (a : α) : List α → Option Nat
  | [] => none
  | x :: xs => if x = a then some 0 else (firstIdxOf a xs).map (· + 1)

/-- The swap-remove loop of `deleteFile`: find the first occurrence of `a`,
overwrite it with the last element of the list, pop the last element.  When
`a` does not occur the loop falls through and the list is unchanged. -/
def swapRemoveFirst {α : Type} [DecidableEq α] (a : α) (l : List α) : List α :=
  match firstIdxOf a l with
  | none => l
  | some i => (l.set i (l.getLastD a)).dropLast

namespace OGStorage

/-- File id, derived in the source as
`keccak256(abi.encodePacked(rootHash, msg.sender, block.timestamp))`;
modelled as the packed triple itself (collision-free hash abstraction). -/
structure FileId where
  rootHash : String
  sender : Nat
  timestamp : Nat
  deriving DecidableEq

/-- The `File` struct of OGStorage.  The source field `exists` is a reserved
word in Lean, hence `exists_`.  `sharedWith` is the nested
`mapping(address => bool)`. -/
structure File where
  rootHash : String
  owner : Nat
  timestamp : Nat
  exists_ : Bool
  sharedWith : Nat → Bool

/-- State of the OGStorage contract: the `files` and `userFiles` mappings,
the global file counter, the Pausable flag and the AccessControl role sets. -/
structure StorageState where
  files : FileId → File
  userFiles : Nat → List FileId
  fileCounter : Nat
  paused : Bool
  roles : Role → Nat → Bool

/-- Solidity storage default for a `File` slot: empty string, zero address,
zero timestamp, `false` flags. -/
def emptyFile : File :=
  { rootHash := "", owner := 0, timestamp := 0, exists_ := false,
    sharedWith := fun _ => false }

/-- State right after `initialize()`: empty storage, unpaused, the deployer
holding `DEFAULT_ADMIN_ROLE` and `ADMIN_ROLE`. -/
def initStorage (deployer : Nat) : StorageState :=
  { files := fun _ => emptyFile,
    userFiles := fun _ => [],
    fileCounter := 0,
    paused := false,
    roles := fun r a =>
      if (r = .defaultAdmin ∨ r = .admin) ∧ a = deployer then true else false }

/-- `uploadFile(rootHash)`: `whenNotPaused`; rejects an empty root hash;
derives the id from `(rootHash, msg.sender, block.timestamp)`; rejects an id
that already exists; then writes the scalar fields of the storage struct
(the nested `sharedWith` mapping of the slot is reused as-is), appends the id
to the caller's list and increments the counter. -/
def uploadFile (s : StorageState) (sender ts : Nat) (rootHash : String) :
    Except SolErr (FileId × StorageState) :=
  if s.paused then .error .pausedErr
  else if rootHash.length = 0 then .error (.reqFail "Root hash cannot be empty")
  else
    let fileId : FileId := ⟨rootHash, sender, ts⟩
    if (s.files fileId).exists_ then .error (.reqFail "File already exists")
    else
      let newFile : File :=
        { rootHash := rootHash, owner := sender, timestamp := ts,
          exists_ := true, sharedWith := (s.files fileId).sharedWith }
      .ok (fileId,
        { s with
          files := fun x => if x = fileId then newFile else s.files x,
          userFiles := fun p =>
            if p = sender then s.userFiles sender ++ [fileId] else s.userFiles p,
          fileCounter := s.fileCounter + 1 })

/-- `shareFile(fileId, user)`: `whenNotPaused`; requires the record exists,
the caller is the owner, the grantee is not the zero address and is not
already shared; then sets the `sharedWith` entry. -/
def shareFile (s : StorageState) (sender : Nat) (fileId : FileId) (user : Nat) :
    Except SolErr StorageState :=
  if s.paused then .error .pausedErr
  else if (s.files fileId).exists_ = false then .error (.reqFail "File does not exist")
  else if (s.files fileId).owner ≠ sender then .error (.reqFail "Not file owner")
  else if user = 0 then .error (.reqFail "Invalid address")
  else if (s.files fileId).sharedWith user then .error (.reqFail "Already shared with user")
  else .ok { s with
    files := fun x =>
      if x = fileId then
        { s.files fileId with
          sharedWith := fun u => if u = user then true else (s.files fileId).sharedWith u }
      else s.files x }

/-- `unshareFile(fileId, user)`: `whenNotPaused`; requires the record exists,
the caller is the owner and the grantee is currently shared; then clears the
`sharedWith` entry. -/
def unshareFile (s : StorageState) (sender : Nat) (fileId : FileId) (user : Nat) :
    Except SolErr StorageState :=
  if s.paused then .error .pausedErr
  else if (s.files fileId).exists_ = false then .error (.reqFail "File does not exist")
  else if (s.files fileId).owner ≠ sender then .error (.reqFail "Not file owner")
  else if (s.files fileId).sharedWith user = false then .error (.reqFail "Not shared with user")
  else .ok { s with
    files := fun x =>
      if x = fileId then
        { s.files fileId with
          sharedWith := fun u => if u = user then false else (s.files fileId).sharedWith u }
      else s.files x }

/-- `deleteFile(fileId)`: `whenNotPaused`; requires the record exists and the
caller is the owner.  `delete files[fileId]` zeroes the scalar fields but, per
Solidity semantics, leaves the nested `sharedWith` mapping untouched; the loop
swap-removes the first occurrence of the id from the caller's list; the
counter decrement reverts on underflow (`Counters` library). -/
def deleteFile (s : StorageState) (sender : Nat) (fileId : FileId) :
    Except SolErr StorageState :=
  if s.paused then .error .pausedErr
  else if (s.files fileId).exists_ = false then .error (.reqFail "File does not exist")
  else if (s.files fileId).owner ≠ sender then .error (.reqFail "Not file owner")
  else if s.fileCounter = 0 then .error (.reqFail "Counter: decrement overflow")
  else
    let cleared : File :=
      { rootHash := "", owner := 0, timestamp := 0, exists_ := false,
        sharedWith := (s.files fileId).sharedWith }
    .ok { s with
      files := fun x => if x = fileId then cleared else s.files x,
      userFiles := fun p =>
        if p = sender then swapRemoveFirst fileId (s.userFiles sender) else s.userFiles p,
      fileCounter := s.fileCounter - 1 }

/-- `hasAccess(fileId, user)`: a pure view, `false` for a non-existing record,
otherwise owner-or-shared. -/
def hasAccess (s : StorageState) (fileId : FileId) (user : Nat) : Bool :=
  if (s.files fileId).exists_ = false then false
  else ((s.files fileId).owner == user) || (s.files fileId).sharedWith user

/-- `getUserFiles(user)`: unrestricted read of the owner index. -/
def getUserFiles (s : StorageState) (user : Nat) : List FileId :=
  s.userFiles user

/-- `getTotalFiles()`: unrestricted read of the global counter. -/
def getTotalFiles (s : StorageState) : Nat :=
  s.fileCounter

/-- `pause()`: `onlyRole(ADMIN_ROLE)`, then `_pause()` whose `whenNotPaused`
modifier reverts if the contract is already paused. -/
def pause (s : StorageState) (sender : Nat) : Except SolErr StorageState :=
  if s.roles .admin sender = false then .error (.missingRole .admin sender)
  else if s.paused then .error .pausedErr
  else .ok { s with paused := true }

/-- `unpause()`: `onlyRole(ADMIN_ROLE)`, then `_unpause()` whose `whenPaused`
modifier reverts if the contract is not paused. -/
def unpause (s : StorageState) (sender : Nat) : Except SolErr StorageState :=
  if s.roles .admin sender = false then .error (.missingRole .admin sender)
  else if s.paused = false then .error .notPausedErr
  else .ok { s with paused := false }

/-- `grantRole(role, account)`: gated by the admin of `role`, which is
`DEFAULT_ADMIN_ROLE` for every role here (no `_setRoleAdmin` call in the
sources); `_grantRole` is idempotent. -/
def grantRole (s : StorageState) (sender : Nat) (role : Role) (account : Nat) :
    Except SolErr StorageState :=
  if s.roles .defaultAdmin sender = false then .error (.missingRole .defaultAdmin sender)
  else .ok { s with
    roles := fun r a => if r = role ∧ a = account then true else s.roles r a }

/-- `revokeRole(role, account)`: gated by `DEFAULT_ADMIN_ROLE`. -/
def revokeRole (s : StorageState) (sender : Nat) (role : Role) (account : Nat) :
    Except SolErr StorageState :=
  if s.roles .defaultAdmin sender = false then .error (.missingRole .defaultAdmin sender)
  else .ok { s with
    roles := fun r a => if r = role ∧ a = account then false else s.roles r a }

/-- One external call to OGStorage, for the reachability relation. -/
inductive StorageOp where
  | uploadOp (sender ts : Nat) (rootHash : String)
  | shareOp (sender : Nat) (fileId : FileId) (user : Nat)
  | unshareOp (sender : Nat) (fileId : FileId) (user : Nat)
  | deleteOp (sender : Nat) (fileId : FileId)
  | pauseOp (sender : Nat)
  | unpauseOp (sender : Nat)
  | grantOp (sender : Nat) (role : Role) (account : Nat)
  | revokeOp (sender : Nat) (role : Role) (account : Nat)
  deriving DecidableEq

/-- Dispatch one external call (the returned file id of `uploadFile` is
dropped; only the post-state matters for reachability). -/
def stepStorage (s : StorageState) : StorageOp → Except SolErr StorageState
  | .uploadOp sender ts h => (uploadFile s sender ts h).map (fun r => r.2)
  | .shareOp sender fid u => shareFile s sender fid u
  | .unshareOp sender fid u => unshareFile s sender fid u
  | .deleteOp sender fid => deleteFile s sender fid
  | .pauseOp sender => pause s sender
  | .unpauseOp sender => unpause s sender
  | .grantOp sender r a => grantRole s sender r a
  | .revokeOp sender r a => revokeRole s sender r a

/-- States reachable from a fresh deployment by successful external calls
(a reverted call does not change state, so only `.ok` results step). -/
inductive StorageReach : StorageState → Prop where
  | init (deployer : Nat) : StorageReach (initStorage deployer)
  | step {s s' : StorageState} {op : StorageOp} :
      StorageReach s → stepStorage s op = .ok s' → StorageReach s'

/-- The inductive invariant of OGStorage: the owner index holds exactly the
ids of existing records of that owner, index lists are duplicate-free, the
zero address is never in a `sharedWith` set, and the global counter equals
the number of existing records (witnessed by a duplicate-free list of the
existing ids). -/
def StorageInv (s : StorageState) : Prop :=
  (∀ p fid, fid ∈ s.userFiles p ↔
    ((s.files fid).exists_ = true ∧ (s.files fid).owner = p)) ∧
  (∀ p, (s.userFiles p).Nodup) ∧
  (∀ fid, (s.files fid).sharedWith 0 = false) ∧
  (∃ ids : List FileId, ids.Nodup ∧
    (∀ fid, ((s.files fid).exists_ = true ↔ fid ∈ ids)) ∧
    s.fileCounter = ids.length)

end OGStorage

namespace OGRegistry

/-- The `UserProfile` struct of OGRegistry. -/
structure UserProfile where
  isRegistered : Bool
  username : String
  storageLimit : Nat
  usedStorage : Nat
  registrationDate : Nat
  deriving DecidableEq

/-- Solidity storage default for a `UserProfile` slot. -/
def emptyProfile : UserProfile :=
  { isRegistered := false, username := "", storageLimit := 0, usedStorage := 0,
    registrationDate := 0 }

/-- State of the OGRegistry contract: the `users` and `usernameToAddress`
mappings (mapping defaults: empty profile, zero address), the default storage
limit, the Pausable flag and the role sets. -/
structure RegistryState where
  users : Nat → UserProfile
  usernameToAddress : String → Nat
  defaultStorageLimit : Nat
  paused : Bool
  roles : Role → Nat → Bool

/-- State right after `initialize(_defaultStorageLimit)`: empty registry,
unpaused, deployer holding `DEFAULT_ADMIN_ROLE` and `ADMIN_ROLE`. -/
def initRegistry (deployer defaultLimit : Nat) : RegistryState :=
  { users := fun _ => emptyProfile,
    usernameToAddress := fun _ => 0,
    defaultStorageLimit := defaultLimit,
    paused := false,
    roles := fun r a =>
      if (r = .defaultAdmin ∨ r = .admin) ∧ a = deployer then true else false }

/-- `register(username)`: `whenNotPaused`; requires the caller unregistered,
a non-empty username, and the username unmapped; creates the profile with the
current default limit and zero used storage, and fills the reverse index. -/
def register (s : RegistryState) (sender ts : Nat) (username : String) :
    Except SolErr RegistryState :=
  if s.paused then .error .pausedErr
  else if (s.users sender).isRegistered then .error (.reqFail "User already registered")
  else if username.length = 0 then .error (.reqFail "Username cannot be empty")
  else if s.usernameToAddress username ≠ 0 then .error (.reqFail "Username already taken")
  else .ok { s with
    users := fun a =>
      if a = sender then
        { isRegistered := true, username := username,
          storageLimit := s.defaultStorageLimit, usedStorage := 0,
          registrationDate := ts }
      else s.users a,
    usernameToAddress := fun u => if u = username then sender else s.usernameToAddress u }

/-- `updateUsedStorage(user, newUsedStorage)`: `onlyRole(VERIFIER_ROLE)` and
NOT pause-gated; requires a registered user and `newUsedStorage` within the
user's limit; overwrites `usedStorage`. -/
def updateUsedStorage (s : RegistryState) (sender user newUsedStorage : Nat) :
    Except SolErr RegistryState :=
  if s.roles .verifier sender = false then .error (.missingRole .verifier sender)
  else if (s.users user).isRegistered = false then .error (.reqFail "User not registered")
  else if (s.users user).storageLimit < newUsedStorage then
    .error (.reqFail "Storage limit exceeded")
  else .ok { s with
    users := fun a =>
      if a = user then { s.users user with usedStorage := newUsedStorage } else s.users a }

/-- `updateStorageLimit(user, newLimit)`: `onlyRole(ADMIN_ROLE)` and NOT
pause-gated; requires a registered user and a limit not below the current
usage; overwrites `storageLimit`. -/
def updateStorageLimit (s : RegistryState) (sender user newLimit : Nat) :
    Except SolErr RegistryState :=
  if s.roles .admin sender = false then .error (.missingRole .admin sender)
  else if (s.users user).isRegistered = false then .error (.reqFail "User not registered")
  else if newLimit < (s.users user).usedStorage then
    .error (.reqFail "New limit below used storage")
  else .ok { s with
    users := fun a =>
      if a = user then { s.users user with storageLimit := newLimit } else s.users a }

/-- `updateDefaultStorageLimit(newLimit)`: `onlyRole(ADMIN_ROLE)`, NOT
pause-gated, unconditional overwrite. -/
def updateDefaultStorageLimit (s : RegistryState) (sender newLimit : Nat) :
    Except SolErr RegistryState :=
  if s.roles .admin sender = false then .error (.missingRole .admin sender)
  else .ok { s with defaultStorageLimit := newLimit }

/-- `pause()` of OGRegistry: admin only, reverts if already paused. -/
def pause (s : RegistryState) (sender : Nat) : Except SolErr RegistryState :=
  if s.roles .admin sender = false then .error (.missingRole .admin sender)
  else if s.paused then .error .pausedErr
  else .ok { s with paused := true }

/-- `unpause()` of OGRegistry: admin only, reverts if not paused. -/
def unpause (s : RegistryState) (sender : Nat) : Except SolErr RegistryState :=
  if s.roles .admin sender = false then .error (.missingRole .admin sender)
  else if s.paused = false then .error .notPausedErr
  else .ok { s with paused := false }

/-- `grantRole` of OGRegistry (role admin is `DEFAULT_ADMIN_ROLE`). -/
def grantRole (s : RegistryState) (sender : Nat) (role : Role) (account : Nat) :
    Except SolErr RegistryState :=
  if s.roles .defaultAdmin sender = false then .error (.missingRole .defaultAdmin sender)
  else .ok { s with
    roles := fun r a => if r = role ∧ a = account then true else s.roles r a }

/-- `revokeRole` of OGRegistry. -/
def revokeRole (s : RegistryState) (sender : Nat) (role : Role) (account : Nat) :
    Except SolErr RegistryState :=
  if s.roles .defaultAdmin sender = false then .error (.missingRole .defaultAdmin sender)
  else .ok { s with
    roles := fun r a => if r = role ∧ a = account then false else s.roles r a }

/-- One external call to OGRegistry. -/
inductive RegOp where
  | registerOp (sender ts : Nat) (username : String)
  | updUsedOp (sender user newUsed : Nat)
  | updLimitOp (sender user newLimit : Nat)
  | updDefaultOp (sender newLimit : Nat)
  | pauseOp (sender : Nat)
  | unpauseOp (sender : Nat)
  | grantOp (sender : Nat) (role : Role) (account : Nat)
  | revokeOp (sender : Nat) (role : Role) (account : Nat)
  deriving DecidableEq

/-- Dispatch one external call to OGRegistry. -/
def stepRegistry (s : RegistryState) : RegOp → Except SolErr RegistryState
  | .registerOp sender ts u => register s sender ts u
  | .updUsedOp sender user n => updateUsedStorage s sender user n
  | .updLimitOp sender user n => updateStorageLimit s sender user n
  | .updDefaultOp sender n => updateDefaultStorageLimit s sender n
  | .pauseOp sender => pause s sender
  | .unpauseOp sender => unpause s sender
  | .grantOp sender r a => grantRole s sender r a
  | .revokeOp sender r a => revokeRole s sender r a

/-- States of OGRegistry reachable from a fresh deployment. -/
inductive RegReach : RegistryState → Prop where
  | init (deployer defaultLimit : Nat) : RegReach (initRegistry deployer defaultLimit)
  | step {s s' : RegistryState} {op : RegOp} :
      RegReach s → stepRegistry s op = .ok s' → RegReach s'

end OGRegistry

namespace OGFees

/-- The `FeeConfig` struct of OGFees. -/
structure FeeConfig where
  baseStorageFee : Nat
  networkFee : Nat
  sharingFee : Nat
  minimumFee : Nat
  deriving DecidableEq

/-- State of the OGFees contract.  `balance` is `address(this).balance`, the
undistributed fee balance held by the ledger itself. -/
structure FeesState where
  feeConfig : FeeConfig
  treasury : Nat
  discountedUsers : Nat → Bool
  discountPercentage : Nat
  balance : Nat
  paused : Bool
  roles : Role → Nat → Bool

/-- Events of OGFees that the claims observe. -/
inductive FeeEvent where
  | FeeCollected (user : Nat) (amount : Nat) (feeType : String)
  | FeeDistributed (recipient : Nat) (amount : Nat)
  deriving DecidableEq

/-- `initialize(...)` of OGFees: requires a non-zero treasury and a discount
percentage at most 100; grants the deployer `DEFAULT_ADMIN_ROLE`,
`ADMIN_ROLE` and `FEE_MANAGER_ROLE`. -/
def initFees (deployer treasury baseStorageFee networkFee sharingFee minimumFee
    discountPercentage : Nat) : Except SolErr FeesState :=
  if treasury = 0 then .error (.reqFail "Invalid treasury address")
  else if 100 < discountPercentage then .error (.reqFail "Invalid discount percentage")
  else .ok
    { feeConfig :=
        { baseStorageFee := baseStorageFee, networkFee := networkFee,
          sharingFee := sharingFee, minimumFee := minimumFee },
      treasury := treasury,
      discountedUsers := fun _ => false,
      discountPercentage := discountPercentage,
      balance := 0,
      paused := false,
      roles := fun r a =>
        if (r = .defaultAdmin ∨ r = .admin ∨ r = .feeManager) ∧ a = deployer then true
        else false }

/-- `calculateStorageFee(size)`: `size * baseStorageFee + networkFee`, floored
at `minimumFee`; the multiplication and addition are Solidity 0.8 checked
`uint256` arithmetic, so a result reaching `2 ^ 256` reverts. -/
def calculateStorageFee (s : FeesState) (size : Nat) : Except SolErr Nat :=
  if U256 ≤ size * s.feeConfig.baseStorageFee then .error .overflow
  else if U256 ≤ size * s.feeConfig.baseStorageFee + s.feeConfig.networkFee then
    .error .overflow
  else
    let fee := size * s.feeConfig.baseStorageFee + s.feeConfig.networkFee
    if fee < s.feeConfig.minimumFee then .ok s.feeConfig.minimumFee
    else .ok fee

/-- `getSharingFee()`: returns `feeConfig.sharingFee` verbatim. -/
def getSharingFee (s : FeesState) : Nat :=
  s.feeConfig.sharingFee

/-- `applyDiscount(user, amount)`: identity for non-discounted users;
otherwise subtracts `amount * discountPercentage / 100` (checked `uint256`
multiplication, floor division, checked subtraction). -/
def applyDiscount (s : FeesState) (user amount : Nat) : Except SolErr Nat :=
  if s.discountedUsers user = false then .ok amount
  else if U256 ≤ amount * s.discountPercentage then .error .overflow
  else
    let discount := amount * s.discountPercentage / 100
    if amount < discount then .error .overflow
    else .ok (amount - discount)

/-- `collectFee(user, amount, feeType)`: `payable whenNotPaused
onlyRole(FEE_MANAGER_ROLE)`; requires `msg.value >= amount`; emits
`FeeCollected`, then refunds the excess `msg.value - amount` to `user` via a
low-level call whose failure reverts the whole call.  `msgValue` is the value
attached to the call and `refundOk` the outcome of the external refund
transfer (relevant only when there is an excess).  On success the result is
(emitted events, wei refunded to `user`, post-state): the contract received
`msgValue` and sent back `msgValue - amount`, so its balance grows by exactly
`amount`. -/
def collectFee (s : FeesState) (sender user amount : Nat) (feeType : String)
    (msgValue : Nat) (refundOk : Bool) :
    Except SolErr (List FeeEvent × Nat × FeesState) :=
  if s.paused then .error .pausedErr
  else if s.roles .feeManager sender = false then .error (.missingRole .feeManager sender)
  else if msgValue < amount then .error (.reqFail "Insufficient fee")
  else if amount < msgValue ∧ refundOk = false then
    .error (.reqFail "Failed to return excess fee")
  else .ok ([.FeeCollected user amount feeType], msgValue - amount,
    { s with balance := s.balance + amount })

/-- `distributeFees()`: `onlyRole(ADMIN_ROLE)` and NOT pause-gated; requires a
positive balance; transfers the whole balance to the treasury (a failed
transfer reverts everything) and emits `FeeDistributed`. -/
def distributeFees (s : FeesState) (sender : Nat) (transferOk : Bool) :
    Except SolErr (List FeeEvent × FeesState) :=
  if s.roles .admin sender = false then .error (.missingRole .admin sender)
  else if s.balance = 0 then .error (.reqFail "No fees to distribute")
  else if transferOk = false then .error (.reqFail "Failed to distribute fees")
  else .ok ([.FeeDistributed s.treasury s.balance], { s with balance := 0 })

/-- `updateFeeConfig(...)`: `onlyRole(ADMIN_ROLE)`, NOT pause-gated. -/
def updateFeeConfig (s : FeesState) (sender baseStorageFee networkFee sharingFee
    minimumFee : Nat) : Except SolErr FeesState :=
  if s.roles .admin sender = false then .error (.missingRole .admin sender)
  else .ok { s with
    feeConfig :=
      { baseStorageFee := baseStorageFee, networkFee := networkFee,
        sharingFee := sharingFee, minimumFee := minimumFee } }

/-- `updateTreasury(newTreasury)`: admin only, non-zero address required,
NOT pause-gated. -/
def updateTreasury (s : FeesState) (sender treasury : Nat) : Except SolErr FeesState :=
  if s.roles .admin sender = false then .error (.missingRole .admin sender)
  else if treasury = 0 then .error (.reqFail "Invalid treasury address")
  else .ok { s with treasury := treasury }

/-- `addDiscountedUser(user)`: `onlyRole(FEE_MANAGER_ROLE)`, NOT pause-gated,
rejects a double add. -/
def addDiscountedUser (s : FeesState) (sender user : Nat) : Except SolErr FeesState :=
  if s.roles .feeManager sender = false then .error (.missingRole .feeManager sender)
  else if s.discountedUsers user then .error (.reqFail "Already a discounted user")
  else .ok { s with
    discountedUsers := fun u => if u = user then true else s.discountedUsers u }

/-- `removeDiscountedUser(user)`: `onlyRole(FEE_MANAGER_ROLE)`, NOT
pause-gated, rejects removing a non-discounted user. -/
def removeDiscountedUser (s : FeesState) (sender user : Nat) : Except SolErr FeesState :=
  if s.roles .feeManager sender = false then .error (.missingRole .feeManager sender)
  else if s.discountedUsers user = false then .error (.reqFail "Not a discounted user")
  else .ok { s with
    discountedUsers := fun u => if u = user then false else s.discountedUsers u }

/-- `updateDiscountPercentage(p)`: admin only, requires `p <= 100`, NOT
pause-gated. -/
def updateDiscountPercentage (s : FeesState) (sender p : Nat) : Except SolErr FeesState :=
  if s.roles .admin sender = false then .error (.missingRole .admin sender)
  else if 100 < p then .error (.reqFail "Invalid discount percentage")
  else .ok { s with discountPercentage := p }

/-- `pause()` of OGFees: admin only, reverts if already paused. -/
def pause (s : FeesState) (sender : Nat) : Except SolErr FeesState :=
  if s.roles .admin sender = false then .error (.missingRole .admin sender)
  else if s.paused then .error .pausedErr
  else .ok { s with paused := true }

/-- `unpause()` of OGFees: admin only, reverts if not paused. -/
def unpause (s : FeesState) (sender : Nat) : Except SolErr FeesState :=
  if s.roles .admin sender = false then .error (.missingRole .admin sender)
  else if s.paused = false then .error .notPausedErr
  else .ok { s with paused := false }

/-- `grantRole` of OGFees (role admin is `DEFAULT_ADMIN_ROLE`). -/
def grantRole (s : FeesState) (sender : Nat) (role : Role) (account : Nat) :
    Except SolErr FeesState :=
  if s.roles .defaultAdmin sender = false then .error (.missingRole .defaultAdmin sender)
  else .ok { s with
    roles := fun r a => if r = role ∧ a = account then true else s.roles r a }

end OGFees

/-! Concrete example states, used to evaluate the model on explicit inputs:
a deployment by principal `1`, an upload by `1` at timestamp `5` of content
hash `"h"`, a share with principal `2`, a deletion, and a re-upload of the
identical content by the same sender at the same timestamp. -/

/-- The file id derived from content hash `"h"`, sender `1`, timestamp `5`. -/
def exFid : OGStorage.FileId := ⟨"h", 1, 5⟩

/-- Fresh OGStorage deployment by principal `1`. -/
def exS0 : OGStorage.StorageState := OGStorage.initStorage 1

/-- After `uploadFile("h")` by `1` at timestamp `5`. -/
def exS1 : OGStorage.StorageState :=
  okD exS0 ((OGStorage.uploadFile exS0 1 5 "h").map (fun r => r.2))

/-- After `shareFile(exFid, 2)` by `1`. -/
def exS2 : OGStorage.StorageState := okD exS1 (OGStorage.shareFile exS1 1 exFid 2)

/-- After `deleteFile(exFid)` by `1`. -/
def exS3 : OGStorage.StorageState := okD exS2 (OGStorage.deleteFile exS2 1 exFid)

/-- After a second `uploadFile("h")` by `1` at timestamp `5`: same derivation
inputs, hence the same id as `exFid`. -/
def exS4 : OGStorage.StorageState :=
  okD exS3 ((OGStorage.uploadFile exS3 1 5 "h").map (fun r => r.2))

/-- Fresh OGRegistry deployment by principal `1` with default limit `100`. -/
def exR0 : OGRegistry.RegistryState := OGRegistry.initRegistry 1 100

/-- After the deployer grants `VERIFIER_ROLE` to principal `2`. -/
def exR1 : OGRegistry.RegistryState := okD exR0 (OGRegistry.grantRole exR0 1 .verifier 2)

/-- After principal `3` registers as `"alice"` at timestamp `10`. -/
def exR2 : OGRegistry.RegistryState := okD exR1 (OGRegistry.register exR1 3 10 "alice")

/-- After the deployer pauses the registry. -/
def exR3 : OGRegistry.RegistryState := okD exR2 (OGRegistry.pause exR2 1)

/-- The fresh OGStorage deployment after the deployer pauses it. -/
def exSP : OGStorage.StorageState := okD exS0 (OGStorage.pause exS0 1)

/-- A paused OGFees state whose deployer-style principal `1` holds every
role, with user `4` discounted at 25 percent and balance `40`. -/
def exF : OGFees.FeesState :=
  { feeConfig := { baseStorageFee := 2, networkFee := 7, sharingFee := 3, minimumFee := 20 },
    treasury := 9,
    discountedUsers := fun u => if u = 4 then true else false,
    discountPercentage := 25,
    balance := 40,
    paused := true,
    roles := fun _ a => if a = 1 then true else false }

/-- The same OGFees state, unpaused. -/
def exFok : OGFees.FeesState := { exF with paused := false }

/-! Lemmas about the swap-remove loop of `deleteFile`. -/

theorem firstIdxOf_eq_none {α : Type} [DecidableEq α] {a : α} {l : List α}
    (h : a ∉ l) : firstIdxOf a l = none := by
  induction l with
  | nil => rfl
  | cons x xs ih =>
    have hx : ¬x = a := fun e => h (e ▸ List.mem_cons_self x xs)
    have hxs : a ∉ xs := fun e => h (List.mem_cons_of_mem x e)
    simp [firstIdxOf, hx, ih hxs]

theorem firstIdxOf_decomp {α : Type} [DecidableEq α] {a : α} {l : List α}
    (h : a ∈ l) :
    ∃ l₁ l₂, a ∉ l₁ ∧ l = l₁ ++ a :: l₂ ∧ firstIdxOf a l = some l₁.length := by
  induction l with
  | nil => cases h
  | cons x xs ih =>
    by_cases hx : x = a
    · exact ⟨[], xs, by simp, by simp [hx], by simp [firstIdxOf, hx]⟩
    · have ha : a ∈ xs := by
        rcases List.mem_cons.mp h with h1 | h1
        · exact absurd h1.symm hx
        · exact h1
      obtain ⟨l₁, l₂, hnl, hl, hidx⟩ := ih ha
      refine ⟨x :: l₁, l₂, ?_, by simp [hl], ?_⟩
      · intro hm
        rcases List.mem_cons.mp hm with h1 | h1
        · exact hx h1.symm
        · exact hnl h1
      · simp [firstIdxOf, hx, hidx]

theorem set_append_cons {α : Type} (l₁ l₂ : List α) (a v : α) :
    (l₁ ++ a :: l₂).set l₁.length v = l₁ ++ v :: l₂ := by
  induction l₁ with
  | nil => rfl
  | cons x xs ih => simp [List.set, ih]

theorem swapRemoveFirst_perm {α : Type} [DecidableEq α] {a : α} {l : List α}
    (h : a ∈ l) :
    ∃ l₁ l₂, a ∉ l₁ ∧ l = l₁ ++ a :: l₂ ∧
      List.Perm (swapRemoveFirst a l) (l₁ ++ l₂) := by
  obtain ⟨l₁, l₂, hnl, hl, hidx⟩ := firstIdxOf_decomp h
  refine ⟨l₁, l₂, hnl, hl, ?_⟩
  rcases List.eq_nil_or_concat' l₂ with h2 | ⟨l₂', x, h2⟩
  · subst h2
    subst hl
    simp only [swapRemoveFirst, hidx]
    rw [List.getLastD_concat, set_append_cons, List.dropLast_concat]
    simp
  · subst h2
    subst hl
    simp only [swapRemoveFirst, hidx]
    have e1 : l₁ ++ a :: (l₂' ++ [x]) = (l₁ ++ a :: l₂') ++ [x] := by simp
    have e2 : (l₁ ++ a :: (l₂' ++ [x])).getLastD a = x := by
      rw [e1, List.getLastD_concat]
    rw [e2, set_append_cons]
    have e3 : l₁ ++ x :: (l₂' ++ [x]) = (l₁ ++ x :: l₂') ++ [x] := by simp
    rw [e3, List.dropLast_concat]
    exact List.Perm.append_left l₁ (List.perm_append_singleton x l₂').symm

theorem swapRemoveFirst_of_not_mem {α : Type} [DecidableEq α] {a : α}
    {l : List α} (h : a ∉ l) : swapRemoveFirst a l = l := by
  simp [swapRemoveFirst, firstIdxOf_eq_none h]

theorem mem_swapRemoveFirst {α : Type} [DecidableEq α] {a b : α} {l : List α}
    (hnd : l.Nodup) (h : a ∈ l) :
    b ∈ swapRemoveFirst a l ↔ b ∈ l ∧ b ≠ a := by
  obtain ⟨l₁, l₂, hnl, hl, hperm⟩ := swapRemoveFirst_perm h
  subst hl
  have hnl₂ : a ∉ l₂ := by
    have := (List.nodup_append.mp hnd).2.1
    exact (List.nodup_cons.mp this).1
  rw [hperm.mem_iff]
  constructor
  · intro hb
    rcases List.mem_append.mp hb with h1 | h1
    · exact ⟨List.mem_append.mpr (Or.inl h1), fun e => hnl (e ▸ h1)⟩
    · exact ⟨List.mem_append.mpr (Or.inr (List.mem_cons_of_mem a h1)),
        fun e => hnl₂ (e ▸ h1)⟩
  · rintro ⟨hb, hne⟩
    rcases List.mem_append.mp hb with h1 | h1
    · exact List.mem_append.mpr (Or.inl h1)
    · rcases List.mem_cons.mp h1 with h2 | h2
      · exact absurd h2 hne
      · exact List.mem_append.mpr (Or.inr h2)

theorem nodup_swapRemoveFirst {α : Type} [DecidableEq α] {a : α} {l : List α}
    (hnd : l.Nodup) (h : a ∈ l) : (swapRemoveFirst a l).Nodup := by
  obtain ⟨l₁, l₂, _, hl, hperm⟩ := swapRemoveFirst_perm h
  subst hl
  refine hperm.symm.nodup ?_
  have hsub : List.Sublist (l₁ ++ l₂) (l₁ ++ a :: l₂) :=
    List.Sublist.append_left (List.sublist_cons_self a l₂) l₁
  exact hnd.sublist hsub

theorem length_swapRemoveFirst {α : Type} [DecidableEq α] {a : α} {l : List α}
    (h : a ∈ l) : (swapRemoveFirst a l).length + 1 = l.length := by
  obtain ⟨l₁, l₂, _, hl, hperm⟩ := swapRemoveFirst_perm h
  subst hl
  rw [hperm.length_eq]
  simp [Nat.add_assoc, Nat.add_comm, Nat.add_left_comm]

namespace OGStorage

/-! The inductive invariant of OGStorage holds in every reachable state. -/

theorem storageInv_init (deployer : Nat) : StorageInv (initStorage deployer) := by
  refine ⟨?_, ?_, ?_, [], ?_, ?_, rfl⟩ <;> simp [initStorage, emptyFile]

theorem storageInv_step {s s' : StorageState} {op : StorageOp}
    (hInv : StorageInv s) (h : stepStorage s op = .ok s') : StorageInv s' := by
  obtain ⟨hmem, hnd, hnull, ids, hids_nd, hids, hcnt⟩ := hInv
  cases op with
  | uploadOp sender ts rh =>
    simp only [stepStorage, uploadFile] at h
    split_ifs at h with h1 h2 h3
    all_goals try simp only [Except.map] at h
    all_goals try exact Except.noConfusion h
    injection h with h
    subst h
    have hfid : ∀ q, (⟨rh, sender, ts⟩ : FileId) ∉ s.userFiles q := by
      intro q hq
      exact absurd ((hmem q _).mp hq).1 h3
    refine ⟨?_, ?_, ?_, ⟨rh, sender, ts⟩ :: ids, ?_, ?_, ?_⟩
    · intro p g
      by_cases hg : g = (⟨rh, sender, ts⟩ : FileId)
      · subst hg
        by_cases hp : p = sender
        · simp [hp, hfid]
        · simp [hp, hfid]
          exact fun e => hp e.symm
      · by_cases hp : p = sender <;> simp [hp, hg, hmem, Ne.symm hg]
    · intro p
      by_cases hp : p = sender
      · have hdisj : (s.userFiles sender).Disjoint [(⟨rh, sender, ts⟩ : FileId)] := by
          intro a ha hb
          rw [List.mem_singleton] at hb
          subst hb
          exact hfid sender ha
        simpa [hp] using (hnd sender).append (List.nodup_singleton _) hdisj
      · simpa [hp] using hnd p
    · intro g
      by_cases hg : g = (⟨rh, sender, ts⟩ : FileId) <;> simp [hg, hnull]
    · refine List.nodup_cons.mpr ⟨fun hm => ?_, hids_nd⟩
      exact absurd ((hids _).mpr hm) h3
    · intro g
      by_cases hg : g = (⟨rh, sender, ts⟩ : FileId) <;> simp [hg, hids]
    · simpa using hcnt
  | shareOp sender fid user =>
    simp only [stepStorage, shareFile] at h
    split_ifs at h with h1 h2 h3 h4 h5
    all_goals try exact Except.noConfusion h
    injection h with h
    subst h
    have h4' : ¬(0 : Nat) = user := fun e => h4 e.symm
    refine ⟨?_, hnd, ?_, ids, hids_nd, ?_, hcnt⟩
    · intro p g
      by_cases hg : g = fid <;> simp [hg, hmem]
    · intro g
      by_cases hg : g = fid <;> simp [hg, hnull, h4']
    · intro g
      by_cases hg : g = fid <;> simp [hg, hids]
  | unshareOp sender fid user =>
    simp only [stepStorage, unshareFile] at h
    split_ifs at h with h1 h2 h3 h4
    all_goals try exact Except.noConfusion h
    injection h with h
    subst h
    refine ⟨?_, hnd, ?_, ids, hids_nd, ?_, hcnt⟩
    · intro p g
      by_cases hg : g = fid <;> simp [hg, hmem]
    · intro g
      by_cases hg : g = fid
      · by_cases hu : (0 : Nat) = user <;> simp [hg, hu, hnull]
      · simp [hg, hnull]
    · intro g
      by_cases hg : g = fid <;> simp [hg, hids]
  | deleteOp sender fid =>
    simp only [stepStorage, deleteFile] at h
    split_ifs at h with h1 h2 h3 h4
    all_goals try exact Except.noConfusion h
    injection h with h
    subst h
    have hex : (s.files fid).exists_ = true := by
      cases hb : (s.files fid).exists_
      · exact absurd hb h2
      · rfl
    have hown : (s.files fid).owner = sender := not_not.mp h3
    have hfmem : fid ∈ s.userFiles sender := (hmem sender fid).mpr ⟨hex, hown⟩
    have hfid_ids : fid ∈ ids := (hids fid).mp hex
    refine ⟨?_, ?_, ?_, ids.erase fid, hids_nd.erase fid, ?_, ?_⟩
    · intro p g
      dsimp only
      by_cases hp : p = sender
      · rw [if_pos hp, mem_swapRemoveFirst (hnd sender) hfmem]
        by_cases hg : g = fid
        · simp [hg]
        · simp [hg, hmem, hp]
      · rw [if_neg hp]
        by_cases hg : g = fid
        · rw [hg, if_pos rfl]
          dsimp only
          constructor
          · intro hq
            exact absurd (((hmem p fid).mp hq).2.symm.trans hown) hp
          · rintro ⟨hc, -⟩
            exact Bool.noConfusion hc
        · rw [if_neg hg]
          exact hmem p g
    · intro p
      dsimp only
      by_cases hp : p = sender
      · rw [if_pos hp]
        exact nodup_swapRemoveFirst (hnd sender) hfmem
      · rw [if_neg hp]
        exact hnd p
    · intro g
      dsimp only
      by_cases hg : g = fid
      · rw [if_pos hg]
        exact hnull fid
      · rw [if_neg hg]
        exact hnull g
    · intro g
      dsimp only
      by_cases hg : g = fid
      · rw [if_pos hg, hg]
        simp [hids_nd.mem_erase_iff]
      · rw [if_neg hg, hids_nd.mem_erase_iff]
        simp [hids, hg]
    · dsimp only
      simp [hcnt, List.length_erase_of_mem hfid_ids]
  | pauseOp sender =>
    simp only [stepStorage, pause] at h
    split_ifs at h
    all_goals try exact Except.noConfusion h
    injection h with h
    subst h
    exact ⟨hmem, hnd, hnull, ids, hids_nd, hids, hcnt⟩
  | unpauseOp sender =>
    simp only [stepStorage, unpause] at h
    split_ifs at h
    all_goals try exact Except.noConfusion h
    injection h with h
    subst h
    exact ⟨hmem, hnd, hnull, ids, hids_nd, hids, hcnt⟩
  | grantOp sender r a =>
    simp only [stepStorage, grantRole] at h
    split_ifs at h
    all_goals try exact Except.noConfusion h
    injection h with h
    subst h
    exact ⟨hmem, hnd, hnull, ids, hids_nd, hids, hcnt⟩
  | revokeOp sender r a =>
    simp only [stepStorage, revokeRole] at h
    split_ifs at h
    all_goals try exact Except.noConfusion h
    injection h with h
    subst h
    exact ⟨hmem, hnd, hnull, ids, hids_nd, hids, hcnt⟩

theorem storageInv_of_reach {s : StorageState} (h : StorageReach s) :
    StorageInv s := by
  induction h with
  | init d => exact storageInv_init d
  | step _ hstep ih => exact storageInv_step ih hstep

end OGStorage

namespace OGRegistry

/-! The quota invariant of OGRegistry holds in every reachable state. -/

theorem regUsedLe_step {s s' : RegistryState} {op : RegOp}
    (ih : ∀ p, (s.users p).usedStorage ≤ (s.users p).storageLimit)
    (h : stepRegistry s op = .ok s') :
    ∀ p, (s'.users p).usedStorage ≤ (s'.users p).storageLimit := by
  cases op with
  | registerOp sender ts uname =>
    simp only [stepRegistry, register] at h
    split_ifs at h
    all_goals try exact Except.noConfusion h
    injection h with h
    subst h
    intro p
    dsimp only
    by_cases hp : p = sender
    · rw [if_pos hp]
      exact Nat.zero_le _
    · rw [if_neg hp]
      exact ih p
  | updUsedOp sender user n =>
    simp only [stepRegistry, updateUsedStorage] at h
    split_ifs at h with h1 h2 h3
    all_goals try exact Except.noConfusion h
    injection h with h
    subst h
    intro p
    dsimp only
    by_cases hp : p = user
    · rw [if_pos hp]
      exact Nat.le_of_not_lt h3
    · rw [if_neg hp]
      exact ih p
  | updLimitOp sender user n =>
    simp only [stepRegistry, updateStorageLimit] at h
    split_ifs at h with h1 h2 h3
    all_goals try exact Except.noConfusion h
    injection h with h
    subst h
    intro p
    dsimp only
    by_cases hp : p = user
    · rw [if_pos hp]
      exact Nat.le_of_not_lt h3
    · rw [if_neg hp]
      exact ih p
  | updDefaultOp sender n =>
    simp only [stepRegistry, updateDefaultStorageLimit] at h
    split_ifs at h
    all_goals try exact Except.noConfusion h
    injection h with h
    subst h
    exact ih
  | pauseOp sender =>
    simp only [stepRegistry, pause] at h
    split_ifs at h
    all_goals try exact Except.noConfusion h
    injection h with h
    subst h
    exact ih
  | unpauseOp sender =>
    simp only [stepRegistry, unpause] at h
    split_ifs at h
    all_goals try exact Except.noConfusion h
    injection h with h
    subst h
    exact ih
  | grantOp sender r a =>
    simp only [stepRegistry, grantRole] at h
    split_ifs at h
    all_goals try exact Except.noConfusion h
    injection h with h
    subst h
    exact ih
  | revokeOp sender r a =>
    simp only [stepRegistry, revokeRole] at h
    split_ifs at h
    all_goals try exact Except.noConfusion h
    injection h with h
    subst h
    exact ih

theorem regUsedLe_of_reach {s : RegistryState} (h : RegReach s) :
    ∀ p, (s.users p).usedStorage ≤ (s.users p).storageLimit := by
  induction h with
  | init d dl =>
    intro p
    simp [initRegistry, emptyProfile]
  | step _ hstep ih => exact regUsedLe_step ih hstep

end OGRegistry

/-! Reachability of the concrete example states. -/

theorem reach_exS0 : OGStorage.StorageReach exS0 := .init 1

theorem reach_exS1 : OGStorage.StorageReach exS1 :=
  .step reach_exS0
    (show OGStorage.stepStorage exS0 (.uploadOp 1 5 "h") = .ok exS1 from rfl)

theorem reach_exS2 : OGStorage.StorageReach exS2 :=
  .step reach_exS1
    (show OGStorage.stepStorage exS1 (.shareOp 1 exFid 2) = .ok exS2 from rfl)

theorem reach_exS3 : OGStorage.StorageReach exS3 :=
  .step reach_exS2
    (show OGStorage.stepStorage exS2 (.deleteOp 1 exFid) = .ok exS3 from rfl)

theorem reach_exR0 : OGRegistry.RegReach exR0 := .init 1 100

theorem reach_exR1 : OGRegistry.RegReach exR1 :=
  .step reach_exR0
    (show OGRegistry.stepRegistry exR0 (.grantOp 1 .verifier 2) = .ok exR1 from rfl)

theorem reach_exR2 : OGRegistry.RegReach exR2 :=
  .step reach_exR1
    (show OGRegistry.stepRegistry exR1 (.registerOp 3 10 "alice") = .ok exR2 from rfl)

theorem reach_exR3 : OGRegistry.RegReach exR3 :=
  .step reach_exR2
    (show OGRegistry.stepRegistry exR2 (.pauseOp 1) = .ok exR3 from rfl)

/-! Claim theorems. -/

/-- C7 (confirmed): `hasAccess(id, p)` is false whenever the record does not
exist, and otherwise true exactly when `p` is the owner or `p` is in the
record's `sharedWith` set; it is a pure read, insensitive to the pause flag
and the role sets. -/
theorem hasAccess_spec (s : OGStorage.StorageState) (fid : OGStorage.FileId)
    (p : Nat) :
    (OGStorage.hasAccess s fid p = true ↔
      ((s.files fid).exists_ = true ∧
        ((s.files fid).owner = p ∨ (s.files fid).sharedWith p = true))) ∧
    ((s.files fid).exists_ = false → OGStorage.hasAccess s fid p = false) ∧
    (∀ b rs, OGStorage.hasAccess { s with paused := b, roles := rs } fid p =
      OGStorage.hasAccess s fid p) := by
  refine ⟨?_, ?_, fun b rs => rfl⟩
  · unfold OGStorage.hasAccess
    by_cases he : (s.files fid).exists_ = false
    · simp [he]
    · have he' : (s.files fid).exists_ = true := by
        cases hb : (s.files fid).exists_
        · exact absurd hb he
        · rfl
      simp [he, he']
  · intro he
    simp [OGStorage.hasAccess, he]

/-- C8 (confirmed): whenever `size * baseStorageFee + networkFee` does not
overflow `uint256`, `calculateStorageFee(size)` returns exactly that quantity
when it is at least `minimumFee` and `minimumFee` otherwise, so every returned
fee is at least `minimumFee`; the arithmetic is exact integer arithmetic. -/
theorem calculateStorageFee_spec (s : OGFees.FeesState) (size v : Nat)
    (hnof : size * s.feeConfig.baseStorageFee + s.feeConfig.networkFee < U256) :
    (OGFees.calculateStorageFee s size =
      .ok (if size * s.feeConfig.baseStorageFee + s.feeConfig.networkFee <
            s.feeConfig.minimumFee
          then s.feeConfig.minimumFee
          else size * s.feeConfig.baseStorageFee + s.feeConfig.networkFee)) ∧
    (OGFees.calculateStorageFee s size = .ok v → s.feeConfig.minimumFee ≤ v) := by
  have h1 : ¬ U256 ≤ size * s.feeConfig.baseStorageFee :=
    Nat.not_le.mpr (Nat.lt_of_le_of_lt (Nat.le_add_right _ _) hnof)
  have h2 : ¬ U256 ≤ size * s.feeConfig.baseStorageFee + s.feeConfig.networkFee :=
    Nat.not_le.mpr hnof
  constructor
  · simp only [OGFees.calculateStorageFee, if_neg h1, if_neg h2]
    split_ifs <;> rfl
  · intro hok
    simp only [OGFees.calculateStorageFee, if_neg h1, if_neg h2] at hok
    split_ifs at hok with h3
    · injection hok with hok
      subst hok
      exact Nat.le_refl _
    · injection hok with hok
      subst hok
      exact Nat.le_of_not_lt h3

/-- C8 witness: in the concrete fee state (base 2, network 7, minimum 20),
`calculateStorageFee(3)` computes `3 * 2 + 7 = 13`, floored to `20`. -/
theorem calculateStorageFee_spec_witness :
    (OGFees.calculateStorageFee exFok 3 =
      .ok (if 3 * exFok.feeConfig.baseStorageFee + exFok.feeConfig.networkFee <
            exFok.feeConfig.minimumFee
          then exFok.feeConfig.minimumFee
          else 3 * exFok.feeConfig.baseStorageFee + exFok.feeConfig.networkFee)) ∧
    (OGFees.calculateStorageFee exFok 3 = .ok 20 →
      exFok.feeConfig.minimumFee ≤ 20) :=
  calculateStorageFee_spec exFok 3 20 (by decide)

/-- C9 (confirmed): with the configured discount percentage in `[0, 100]` and
no `uint256` overflow of `amount * discountPercentage`, `applyDiscount(p, a)`
returns `a` unchanged for a non-discounted `p` and
`a - floor(a * discountPercentage / 100)` for a discounted `p`. -/
theorem applyDiscount_spec (s : OGFees.FeesState) (user amount : Nat)
    (hd : s.discountPercentage ≤ 100)
    (hnof : amount * s.discountPercentage < U256) :
    (s.discountedUsers user = false →
      OGFees.applyDiscount s user amount = .ok amount) ∧
    (s.discountedUsers user = true →
      OGFees.applyDiscount s user amount =
        .ok (amount - amount * s.discountPercentage / 100)) := by
  constructor
  · intro hnd
    simp [OGFees.applyDiscount, hnd]
  · intro hdu
    have hle : amount * s.discountPercentage / 100 ≤ amount := by
      have h1 : amount * s.discountPercentage ≤ amount * 100 :=
        Nat.mul_le_mul_left amount hd
      have h2 : amount * s.discountPercentage / 100 ≤ amount * 100 / 100 :=
        Nat.div_le_div_right h1
      simpa using h2
    have hnlt : ¬ amount < amount * s.discountPercentage / 100 :=
      Nat.not_lt.mpr hle
    simp [OGFees.applyDiscount, hdu, Nat.not_le.mpr hnof, hnlt]

/-- C9 witness: principal `4` is discounted at 25 percent, so a fee of `40`
becomes `40 - 40 * 25 / 100 = 30`; principal `3` is not discounted, so `40`
is unchanged. -/
theorem applyDiscount_spec_witness :
    (exFok.discountedUsers 3 = false →
      OGFees.applyDiscount exFok 3 40 = .ok 40) ∧
    (exFok.discountedUsers 3 = true →
      OGFees.applyDiscount exFok 3 40 =
        .ok (40 - 40 * exFok.discountPercentage / 100)) :=
  applyDiscount_spec exFok 3 40 (by decide) (by decide)

/-- C4 (confirmed): for an unpaused ledger and a fee-manager caller,
`collectFee(payer, amount, feeType)` reverts with the insufficient-payment
error when the attached value is below `amount`; when the attached value
covers `amount` and the refund transfer goes through, it succeeds atomically,
emitting `FeeCollected(payer, amount, feeType)`, sending the excess
`value - amount` back to the payer, and growing the held (undistributed)
balance by exactly `amount` while changing nothing else; and when there is an
excess but its refund transfer fails, the whole call reverts with no effect. -/
theorem collectFee_spec (s : OGFees.FeesState) (sender user amount : Nat)
    (ft : String) (v : Nat) (rOk : Bool)
    (hp : s.paused = false) (hr : s.roles .feeManager sender = true) :
    (v < amount → OGFees.collectFee s sender user amount ft v rOk =
      .error (.reqFail "Insufficient fee")) ∧
    (amount ≤ v → rOk = true → OGFees.collectFee s sender user amount ft v rOk =
      .ok ([.FeeCollected user amount ft], v - amount,
        { s with balance := s.balance + amount })) ∧
    (amount < v → rOk = false → OGFees.collectFee s sender user amount ft v rOk =
      .error (.reqFail "Failed to return excess fee")) := by
  refine ⟨?_, ?_, ?_⟩
  · intro hlt
    simp [OGFees.collectFee, hp, hr, hlt]
  · intro hle hrOk
    simp [OGFees.collectFee, hp, hr, Nat.not_lt.mpr hle, hrOk]
  · intro hlt hrOk
    simp [OGFees.collectFee, hp, hr, Nat.not_lt.mpr (Nat.le_of_lt hlt), hlt, hrOk]

/-- C4 witness: `collectFee(4, 100, "storage")` with attached value `150` in
the concrete unpaused state: attaching only `90` is rejected, attaching `150`
succeeds with event `FeeCollected(4, 100, "storage")`, refund `50`, and the
balance growing from `40` to `140`. -/
theorem collectFee_spec_witness :
    (150 < 100 → OGFees.collectFee exFok 1 4 100 "storage" 150 true =
      .error (.reqFail "Insufficient fee")) ∧
    (100 ≤ 150 → true = true → OGFees.collectFee exFok 1 4 100 "storage" 150 true =
      .ok ([.FeeCollected 4 100 "storage"], 150 - 100,
        { exFok with balance := exFok.balance + 100 })) ∧
    (100 < 150 → true = false → OGFees.collectFee exFok 1 4 100 "storage" 150 true =
      .error (.reqFail "Failed to return excess fee")) :=
  collectFee_spec exFok 1 4 100 "storage" 150 true rfl rfl

/-- C5 (confirmed): in every reachable registry state `usedStorage` is within
`storageLimit` for every principal; a verifier's `updateUsedStorage` with a
value exceeding the limit reverts with the limit-exceeded error (leaving the
state, hence `usedStorage`, untouched), within the limit it overwrites
`usedStorage` and keeps the limit; and `updateStorageLimit` rejects a new
limit below the current usage. -/
theorem usedStorage_le_storageLimit (s : OGRegistry.RegistryState)
    (hreach : OGRegistry.RegReach s)
    (p senderV senderA user newUsed newLimit : Nat) :
    (s.users p).usedStorage ≤ (s.users p).storageLimit ∧
    (s.roles .verifier senderV = true → (s.users user).isRegistered = true →
      ((s.users user).storageLimit < newUsed →
        OGRegistry.updateUsedStorage s senderV user newUsed =
          .error (.reqFail "Storage limit exceeded")) ∧
      (newUsed ≤ (s.users user).storageLimit →
        ∃ s', OGRegistry.updateUsedStorage s senderV user newUsed = .ok s' ∧
          (s'.users user).usedStorage = newUsed ∧
          (s'.users user).storageLimit = (s.users user).storageLimit)) ∧
    (s.roles .admin senderA = true → (s.users user).isRegistered = true →
      newLimit < (s.users user).usedStorage →
      OGRegistry.updateStorageLimit s senderA user newLimit =
        .error (.reqFail "New limit below used storage")) := by
  refine ⟨OGRegistry.regUsedLe_of_reach hreach p, ?_, ?_⟩
  · intro hrole hregd
    constructor
    · intro hover
      simp [OGRegistry.updateUsedStorage, hrole, hregd, hover]
    · intro hwithin
      exact ⟨{ s with users := fun a => if a = user then { s.users user with usedStorage := newUsed } else s.users a },
        by simp [OGRegistry.updateUsedStorage, hrole, hregd, Nat.not_lt.mpr hwithin],
        by simp, by simp⟩
  · intro hrole hregd hbelow
    simp [OGRegistry.updateStorageLimit, hrole, hregd, hbelow]

/-- C5 witness: in the reachable state where principal `3` is registered with
limit `100` and usage `0`, and principal `2` holds the verifier role: the
quota invariant holds for `3`, `updateUsedStorage(3, 150)` is rejected, and
`updateUsedStorage(3, 50)` overwrites the usage. -/
theorem usedStorage_le_storageLimit_witness :
    (exR2.users 3).usedStorage ≤ (exR2.users 3).storageLimit ∧
    (exR2.roles .verifier 2 = true → (exR2.users 3).isRegistered = true →
      ((exR2.users 3).storageLimit < 150 →
        OGRegistry.updateUsedStorage exR2 2 3 150 =
          .error (.reqFail "Storage limit exceeded")) ∧
      (150 ≤ (exR2.users 3).storageLimit →
        ∃ s', OGRegistry.updateUsedStorage exR2 2 3 150 = .ok s' ∧
          (s'.users 3).usedStorage = 150 ∧
          (s'.users 3).storageLimit = (exR2.users 3).storageLimit)) ∧
    (exR2.roles .admin 1 = true → (exR2.users 3).isRegistered = true →
      80 < (exR2.users 3).usedStorage →
      OGRegistry.updateStorageLimit exR2 1 3 80 =
        .error (.reqFail "New limit below used storage")) :=
  usedStorage_le_storageLimit exR2 reach_exR2 3 2 1 3 150 80

/-- C6 (confirmed): in every reachable OGStorage state an id belongs to a
principal's owner index exactly when the record exists with that owner; and a
successful owner `deleteFile(id)` removes `id` from the caller's
`getUserFiles` list and decreases `getTotalFiles` by exactly one. -/
theorem ownerIndex_invariant (s : OGStorage.StorageState)
    (hreach : OGStorage.StorageReach s) (p sender : Nat)
    (fid : OGStorage.FileId) (s' : OGStorage.StorageState) :
    (fid ∈ OGStorage.getUserFiles s p ↔
      ((s.files fid).exists_ = true ∧ (s.files fid).owner = p)) ∧
    (OGStorage.deleteFile s sender fid = .ok s' →
      fid ∉ OGStorage.getUserFiles s' sender ∧
      OGStorage.getTotalFiles s' + 1 = OGStorage.getTotalFiles s) := by
  obtain ⟨hmem, hnd, hnull, ids, hids_nd, hids, hcnt⟩ :=
    OGStorage.storageInv_of_reach hreach
  refine ⟨hmem p fid, ?_⟩
  intro hdel
  simp only [OGStorage.deleteFile] at hdel
  split_ifs at hdel with h1 h2 h3 h4
  all_goals try exact Except.noConfusion hdel
  injection hdel with hdel
  subst hdel
  have hex : (s.files fid).exists_ = true := by
    cases hb : (s.files fid).exists_
    · exact absurd hb h2
    · rfl
  have hown : (s.files fid).owner = sender := not_not.mp h3
  have hfmem : fid ∈ s.userFiles sender := (hmem sender fid).mpr ⟨hex, hown⟩
  constructor
  · simp only [OGStorage.getUserFiles]
    rw [if_pos trivial, mem_swapRemoveFirst (hnd sender) hfmem]
    simp
  · simp only [OGStorage.getTotalFiles]
    have hpos : 0 < s.fileCounter := by
      rw [hcnt]
      exact List.length_pos.mpr (List.ne_nil_of_mem ((hids fid).mp hex))
    exact Nat.sub_add_cancel hpos

/-- C6 witness: in the reachable state holding the single file `exFid` owned
by principal `1` (and shared with `2`), the index equivalence holds and
deleting it empties `getUserFiles(1)` and drops `getTotalFiles` from 1 to 0. -/
theorem ownerIndex_invariant_witness :
    (exFid ∈ OGStorage.getUserFiles exS2 1 ↔
      ((exS2.files exFid).exists_ = true ∧ (exS2.files exFid).owner = 1)) ∧
    (OGStorage.deleteFile exS2 1 exFid = .ok exS3 →
      exFid ∉ OGStorage.getUserFiles exS3 1 ∧
      OGStorage.getTotalFiles exS3 + 1 = OGStorage.getTotalFiles exS2) :=
  ownerIndex_invariant exS2 reach_exS2 1 1 exFid exS3

/-- C10 (confirmed): in every reachable OGStorage state no `sharedWith` set
contains the zero (null) principal; `shareFile` with a null grantee never
succeeds — in the unpaused owner-on-existing-record case it reverts with the
invalid-address validation error — and `unshareFile` with a null grantee
never succeeds, reverting with the not-shared error in that same case. -/
theorem null_principal_never_shared (s : OGStorage.StorageState)
    (hreach : OGStorage.StorageReach s) (sender : Nat)
    (fid : OGStorage.FileId) :
    ((s.files fid).sharedWith 0 = false) ∧
    (∀ s', OGStorage.shareFile s sender fid 0 ≠ .ok s') ∧
    (∀ s', OGStorage.unshareFile s sender fid 0 ≠ .ok s') ∧
    (s.paused = false → (s.files fid).exists_ = true →
      (s.files fid).owner = sender →
      OGStorage.shareFile s sender fid 0 = .error (.reqFail "Invalid address") ∧
      OGStorage.unshareFile s sender fid 0 =
        .error (.reqFail "Not shared with user")) := by
  obtain ⟨hmem, hnd, hnull, ids, hids_nd, hids, hcnt⟩ :=
    OGStorage.storageInv_of_reach hreach
  refine ⟨hnull fid, ?_, ?_, ?_⟩
  · intro s' hc
    simp only [OGStorage.shareFile] at hc
    split_ifs at hc
    all_goals exact Except.noConfusion hc
  · intro s' hc
    simp only [OGStorage.unshareFile] at hc
    split_ifs at hc with h1 h2 h3 h4
    all_goals try exact Except.noConfusion hc
    all_goals exact absurd (hnull fid) (by assumption)
  · intro hp hex hown
    constructor
    · simp [OGStorage.shareFile, hp, hex, hown]
    · simp [OGStorage.unshareFile, hp, hex, hown, hnull fid]

/-- C10 witness: in the reachable state where `exFid` exists, is owned by `1`
and is shared with `2`, the null principal is not in its `sharedWith` set and
both null-grantee calls fail with the stated errors. -/
theorem null_principal_never_shared_witness :
    ((exS2.files exFid).sharedWith 0 = false) ∧
    (∀ s', OGStorage.shareFile exS2 1 exFid 0 ≠ .ok s') ∧
    (∀ s', OGStorage.unshareFile exS2 1 exFid 0 ≠ .ok s') ∧
    (exS2.paused = false → (exS2.files exFid).exists_ = true →
      (exS2.files exFid).owner = 1 →
      OGStorage.shareFile exS2 1 exFid 0 = .error (.reqFail "Invalid address") ∧
      OGStorage.unshareFile exS2 1 exFid 0 =
        .error (.reqFail "Not shared with user")) :=
  null_principal_never_shared exS2 reach_exS2 1 exFid

/-- C1 counterexample: in the reachable paused registry state, the verifier's
`updateUsedStorage` still succeeds (it has no pause gate), and likewise the
paused fee ledger's `distributeFees` succeeds for its admin — refuting the
claim that every state-mutating operation aborts while paused; moreover, in
the reachable paused storage state, `pause()` called by the admin reverts
with the paused error rather than succeeding. -/
theorem pause_gate_cex :
    OGRegistry.RegReach exR3 ∧ exR3.paused = true ∧
    isOkE (OGRegistry.updateUsedStorage exR3 2 3 50) = true ∧
    exF.paused = true ∧
    isOkE ((OGFees.distributeFees exF 1 true).map (fun r => r.2)) = true ∧
    OGStorage.StorageReach exSP ∧ exSP.paused = true ∧
    exSP.roles .admin 1 = true ∧
    OGStorage.pause exSP 1 = .error .pausedErr :=
  ⟨reach_exR3, rfl, rfl, rfl, rfl,
    .step reach_exS0
      (show OGStorage.stepStorage exS0 (.pauseOp 1) = .ok exSP from rfl),
    rfl, rfl, rfl⟩

/-- C1 (corrected): while paused, the user-facing mutators `uploadFile`,
`shareFile`, `unshareFile`, `deleteFile`, `register` and `collectFee` abort
with the paused error, and `unpause` and role grants still succeed for the
appropriately-roled caller; but `pause()` itself reverts when already paused,
and the role-gated administration — `updateUsedStorage`, `updateStorageLimit`,
`updateDefaultStorageLimit`, `distributeFees`, `updateFeeConfig`,
`updateTreasury`, `addDiscountedUser`, `removeDiscountedUser` and
`updateDiscountPercentage` — has no pause gate and succeeds while paused for
the appropriately-roled caller. -/
theorem pause_gate_scope
    (sSt : OGStorage.StorageState) (sReg : OGRegistry.RegistryState)
    (sFee : OGFees.FeesState)
    (caller senderA senderV senderF ts user duser newUsed newLimit amount v bs
      nf sf mf d t acct : Nat)
    (rh uname ft : String) (fid : OGStorage.FileId) (role : Role) (rOk : Bool)
    (hpSt : sSt.paused = true) (hpReg : sReg.paused = true)
    (hpFee : sFee.paused = true) :
    OGStorage.uploadFile sSt caller ts rh = .error .pausedErr ∧
    OGStorage.shareFile sSt caller fid user = .error .pausedErr ∧
    OGStorage.unshareFile sSt caller fid user = .error .pausedErr ∧
    OGStorage.deleteFile sSt caller fid = .error .pausedErr ∧
    OGRegistry.register sReg caller ts uname = .error .pausedErr ∧
    OGFees.collectFee sFee senderF user amount ft v rOk = .error .pausedErr ∧
    (OGStorage.pause sSt caller =
      if sSt.roles .admin caller = false then .error (.missingRole .admin caller)
      else .error .pausedErr) ∧
    (sSt.roles .admin caller = true →
      OGStorage.unpause sSt caller = .ok { sSt with paused := false }) ∧
    (sSt.roles .defaultAdmin caller = true →
      isOkE (OGStorage.grantRole sSt caller role acct) = true) ∧
    (sReg.roles .verifier senderV = true → (sReg.users user).isRegistered = true →
      newUsed ≤ (sReg.users user).storageLimit →
      isOkE (OGRegistry.updateUsedStorage sReg senderV user newUsed) = true) ∧
    (sReg.roles .admin senderA = true → (sReg.users user).isRegistered = true →
      (sReg.users user).usedStorage ≤ newLimit →
      isOkE (OGRegistry.updateStorageLimit sReg senderA user newLimit) = true) ∧
    (sReg.roles .admin senderA = true →
      isOkE (OGRegistry.updateDefaultStorageLimit sReg senderA newLimit) = true) ∧
    (sFee.roles .admin senderF = true → 0 < sFee.balance →
      isOkE ((OGFees.distributeFees sFee senderF true).map (fun r => r.2)) = true) ∧
    (sFee.roles .admin senderF = true →
      isOkE (OGFees.updateFeeConfig sFee senderF bs nf sf mf) = true) ∧
    (sFee.roles .admin senderF = true → t ≠ 0 →
      isOkE (OGFees.updateTreasury sFee senderF t) = true) ∧
    (sFee.roles .feeManager senderF = true → sFee.discountedUsers user = false →
      isOkE (OGFees.addDiscountedUser sFee senderF user) = true) ∧
    (sFee.roles .feeManager senderF = true → sFee.discountedUsers duser = true →
      isOkE (OGFees.removeDiscountedUser sFee senderF duser) = true) ∧
    (sFee.roles .admin senderF = true → d ≤ 100 →
      isOkE (OGFees.updateDiscountPercentage sFee senderF d) = true) := by
  refine ⟨?_, ?_, ?_, ?_, ?_, ?_, ?_, ?_, ?_, ?_, ?_, ?_, ?_, ?_, ?_, ?_, ?_, ?_⟩
  · simp [OGStorage.uploadFile, hpSt]
  · simp [OGStorage.shareFile, hpSt]
  · simp [OGStorage.unshareFile, hpSt]
  · simp [OGStorage.deleteFile, hpSt]
  · simp [OGRegistry.register, hpReg]
  · simp [OGFees.collectFee, hpFee]
  · by_cases hr : sSt.roles .admin caller = false <;>
      simp [OGStorage.pause, hpSt, hr]
  · intro hr
    simp [OGStorage.unpause, hpSt, hr]
  · intro hr
    simp [OGStorage.grantRole, isOkE, hr]
  · intro hr hregd hle
    simp [OGRegistry.updateUsedStorage, isOkE, hr, hregd, Nat.not_lt.mpr hle]
  · intro hr hregd hle
    simp [OGRegistry.updateStorageLimit, isOkE, hr, hregd, Nat.not_lt.mpr hle]
  · intro hr
    simp [OGRegistry.updateDefaultStorageLimit, isOkE, hr]
  · intro hr hbal
    simp [OGFees.distributeFees, isOkE, Except.map, hr, Nat.pos_iff_ne_zero.mp hbal]
  · intro hr
    simp [OGFees.updateFeeConfig, isOkE, hr]
  · intro hr ht
    simp [OGFees.updateTreasury, isOkE, hr, ht]
  · intro hr hdu
    simp [OGFees.addDiscountedUser, isOkE, hr, hdu]
  · intro hr hdu
    simp [OGFees.removeDiscountedUser, isOkE, hr, hdu]
  · intro hr hd
    simp [OGFees.updateDiscountPercentage, isOkE, hr, Nat.not_lt.mpr hd]

/-- C1 witness: evaluated in the concrete paused states (paused fresh storage
deployment, paused registry with verifier `2` and registered principal `3`,
paused fee ledger whose principal `1` holds every role). -/
theorem pause_gate_scope_witness :
    OGStorage.uploadFile exSP 1 7 "x" = .error .pausedErr ∧
    OGStorage.shareFile exSP 1 exFid 3 = .error .pausedErr ∧
    OGStorage.unshareFile exSP 1 exFid 3 = .error .pausedErr ∧
    OGStorage.deleteFile exSP 1 exFid = .error .pausedErr ∧
    OGRegistry.register exR3 1 7 "bob" = .error .pausedErr ∧
    OGFees.collectFee exF 1 3 10 "fee" 10 true = .error .pausedErr ∧
    (OGStorage.pause exSP 1 =
      if exSP.roles .admin 1 = false then .error (.missingRole .admin 1)
      else .error .pausedErr) ∧
    (exSP.roles .admin 1 = true →
      OGStorage.unpause exSP 1 = .ok { exSP with paused := false }) ∧
    (exSP.roles .defaultAdmin 1 = true →
      isOkE (OGStorage.grantRole exSP 1 .operator 8) = true) ∧
    (exR3.roles .verifier 2 = true → (exR3.users 3).isRegistered = true →
      50 ≤ (exR3.users 3).storageLimit →
      isOkE (OGRegistry.updateUsedStorage exR3 2 3 50) = true) ∧
    (exR3.roles .admin 1 = true → (exR3.users 3).isRegistered = true →
      (exR3.users 3).usedStorage ≤ 100 →
      isOkE (OGRegistry.updateStorageLimit exR3 1 3 100) = true) ∧
    (exR3.roles .admin 1 = true →
      isOkE (OGRegistry.updateDefaultStorageLimit exR3 1 100) = true) ∧
    (exF.roles .admin 1 = true → 0 < exF.balance →
      isOkE ((OGFees.distributeFees exF 1 true).map (fun r => r.2)) = true) ∧
    (exF.roles .admin 1 = true →
      isOkE (OGFees.updateFeeConfig exF 1 1 2 3 4) = true) ∧
    (exF.roles .admin 1 = true → 9 ≠ 0 →
      isOkE (OGFees.updateTreasury exF 1 9) = true) ∧
    (exF.roles .feeManager 1 = true → exF.discountedUsers 3 = false →
      isOkE (OGFees.addDiscountedUser exF 1 3) = true) ∧
    (exF.roles .feeManager 1 = true → exF.discountedUsers 4 = true →
      isOkE (OGFees.removeDiscountedUser exF 1 4) = true) ∧
    (exF.roles .admin 1 = true → 10 ≤ 100 →
      isOkE (OGFees.updateDiscountPercentage exF 1 10) = true) :=
  pause_gate_scope exSP exR3 exF 1 1 2 1 7 3 4 50 100 10 10 1 2 3 4 10 9 8
    "x" "bob" "fee" exFid .operator true rfl rfl rfl

/-- C2 counterexample: the owner `1` uploads content `"h"` at timestamp `5`,
shares, deletes — `exists` becomes false — and then a second upload of the
identical content by the same owner at the same timestamp re-derives the very
same id and re-creates the record: `exists` is true again in a later
reachable state. -/
theorem delete_oneway_cex :
    OGStorage.uploadFile exS0 1 5 "h" = .ok (exFid, exS1) ∧
    OGStorage.shareFile exS1 1 exFid 2 = .ok exS2 ∧
    OGStorage.deleteFile exS2 1 exFid = .ok exS3 ∧
    (exS3.files exFid).exists_ = false ∧
    OGStorage.uploadFile exS3 1 5 "h" = .ok (exFid, exS4) ∧
    (exS4.files exFid).exists_ = true :=
  ⟨rfl, rfl, rfl, rfl, rfl, rfl⟩

/-- C2 (corrected): a successful `deleteFile(id)` sets `exists(id)` to false,
and no later operation re-creates the record under that id EXCEPT an
`uploadFile` of the identical content hash by the identical sender at the
identical timestamp, which re-derives the same id: whenever a step turns
`exists(id)` from false to true, that step is exactly
`uploadFile(id.rootHash)` called by `id.sender` at `id.timestamp`. -/
theorem delete_oneway_unless_identical_upload
    (s s' t t' : OGStorage.StorageState) (sender : Nat)
    (fid : OGStorage.FileId) (op : OGStorage.StorageOp)
    (hdel : OGStorage.deleteFile s sender fid = .ok s')
    (hstep : OGStorage.stepStorage t op = .ok t')
    (hex : (t.files fid).exists_ = false)
    (hex' : (t'.files fid).exists_ = true) :
    (s'.files fid).exists_ = false ∧
    op = .uploadOp fid.sender fid.timestamp fid.rootHash := by
  constructor
  · simp only [OGStorage.deleteFile] at hdel
    split_ifs at hdel
    all_goals try exact Except.noConfusion hdel
    injection hdel with hdel
    subst hdel
    simp
  · cases op with
    | uploadOp c τ rh =>
      simp only [OGStorage.stepStorage, OGStorage.uploadFile] at hstep
      split_ifs at hstep with h1 h2 h3
      all_goals try simp only [Except.map] at hstep
      all_goals try exact Except.noConfusion hstep
      injection hstep with hstep
      subst hstep
      by_cases hfe : fid = (⟨rh, c, τ⟩ : OGStorage.FileId)
      · rw [hfe]
      · exfalso
        simp [hfe, hex] at hex'
    | shareOp c f u =>
      exfalso
      simp only [OGStorage.stepStorage, OGStorage.shareFile] at hstep
      split_ifs at hstep
      all_goals try exact Except.noConfusion hstep
      injection hstep with hstep
      subst hstep
      by_cases hff : fid = f
      · rw [hff] at hex
        simp [hff, hex] at hex'
      · simp [hff, hex] at hex'
    | unshareOp c f u =>
      exfalso
      simp only [OGStorage.stepStorage, OGStorage.unshareFile] at hstep
      split_ifs at hstep
      all_goals try exact Except.noConfusion hstep
      injection hstep with hstep
      subst hstep
      by_cases hff : fid = f
      · rw [hff] at hex
        simp [hff, hex] at hex'
      · simp [hff, hex] at hex'
    | deleteOp c f =>
      exfalso
      simp only [OGStorage.stepStorage, OGStorage.deleteFile] at hstep
      split_ifs at hstep
      all_goals try exact Except.noConfusion hstep
      injection hstep with hstep
      subst hstep
      by_cases hff : fid = f <;> simp [hff, hex] at hex'
    | pauseOp c =>
      exfalso
      simp only [OGStorage.stepStorage, OGStorage.pause] at hstep
      split_ifs at hstep
      all_goals try exact Except.noConfusion hstep
      injection hstep with hstep
      subst hstep
      simp [hex] at hex'
    | unpauseOp c =>
      exfalso
      simp only [OGStorage.stepStorage, OGStorage.unpause] at hstep
      split_ifs at hstep
      all_goals try exact Except.noConfusion hstep
      injection hstep with hstep
      subst hstep
      simp [hex] at hex'
    | grantOp c r a =>
      exfalso
      simp only [OGStorage.stepStorage, OGStorage.grantRole] at hstep
      split_ifs at hstep
      all_goals try exact Except.noConfusion hstep
      injection hstep with hstep
      subst hstep
      simp [hex] at hex'
    | revokeOp c r a =>
      exfalso
      simp only [OGStorage.stepStorage, OGStorage.revokeRole] at hstep
      split_ifs at hstep
      all_goals try exact Except.noConfusion hstep
      injection hstep with hstep
      subst hstep
      simp [hex] at hex'

/-- C2 witness: the concrete delete of `exFid` leaves `exists` false, and the
concrete reviving step is indeed the upload of `exFid.rootHash` by
`exFid.sender` at `exFid.timestamp`. -/
theorem delete_oneway_unless_identical_upload_witness :
    (exS3.files exFid).exists_ = false ∧
    OGStorage.StorageOp.uploadOp 1 5 "h" =
      .uploadOp exFid.sender exFid.timestamp exFid.rootHash :=
  delete_oneway_unless_identical_upload exS2 exS3 exS3 exS4 1 exFid
    (.uploadOp 1 5 "h") rfl rfl rfl rfl

/-- C3 (code bug): `delete files[fileId]` in Solidity does not touch the
nested `sharedWith` mapping, so `deleteFile` erases only the scalar fields:
the pre-deletion grant for principal `2` is still stored after the deletion,
and when the identical upload re-creates the record under the same id, the
stale grant makes `hasAccess` return true for principal `2` again — against
the spec, which requires deletion to erase the record entirely including
`sharedWith`. -/
theorem deleteFile_leaves_sharedWith :
    OGStorage.deleteFile exS2 1 exFid = .ok exS3 ∧
    (exS2.files exFid).sharedWith 2 = true ∧
    (exS3.files exFid).exists_ = false ∧
    (exS3.files exFid).rootHash = "" ∧
    (exS3.files exFid).owner = 0 ∧
    (exS3.files exFid).timestamp = 0 ∧
    (exS3.files exFid).sharedWith 2 = true ∧
    OGStorage.uploadFile exS3 1 5 "h" = .ok (exFid, exS4) ∧
    OGStorage.hasAccess exS4 exFid 2 = true :=
  ⟨rfl, rfl, rfl, rfl, rfl, rfl, rfl, rfl, rfl⟩

end OGDrive
